import Mathlib

/-!
# Verification of the `logger` package (a zap-based logging facade)

Shallow embedding of `src/logger.go`. The package wraps `go.uber.org/zap`:
it assembles a JSON configuration string from a handful of flags, calls
`json.Unmarshal` into a `zap.Config`, builds the singleton logger, and exposes
leveled forwarding functions plus a trace-context accessor.

Modelling conventions:
* Go strings are Lean `String`s; `strings.ToUpper` is `String.toUpper`
  (faithful for ASCII input, which is all the level keywords involve).
* The process-wide mutable `defaultLogger *zap.Logger` becomes the
  `defaultLogger : Option Logger` field of an explicit `LogState`
  (`none` models the nil pointer); functions that read or write it take and
  return the state.
* A log emission is modelled as a `LogEvent` appended to `LogState.events`:
  the record of a logging call delivered to the zap core (the engine's own
  level filtering and I/O are below this model's altitude).
* `zap.Config.Build` constructs a logger that embodies the parsed config;
  environmental failures (e.g. an unopenable sink path) are an oracle
  `Env.buildFail`.  On failure Go's multi-assignment
  `defaultLogger, err = config.Build()` stores the returned nil pointer,
  which the model renders as setting the field to `none`.
* `fmt.Sprintf` is modelled for the verb forms the source uses
  (`%s`, `%t`, `%d`, `%v`, `%%`, missing/extra-argument notices); width and
  flag syntax is not modelled because no format string in the source uses it.
* `log.SetFlags` (stdlib log flag twiddling, logger.go line 37) has no
  observable effect on any claim and is not modelled.
-/

set_option maxRecDepth 8192

namespace LoggerSpec

/-- A dynamic value (`interface{}` in Go): what a `context.Context` key lookup
or a field constructor can carry.  `vmap` models `map[string]interface{}`,
kept as an association list in insertion order. -/
inductive Value where
  | str (s : String)
  | int (n : Int)
  | bool (b : Bool)
  | vmap (kvs : List (String × Value))
  deriving Repr, BEq

/-- A zap field (`zapcore.Field`): a key paired with a value. -/
abbrev Field := String × Value

/-- Model of `Any(key, val)` from logger.go: wraps a key and an arbitrary value as a
field (`zap.Any`). -/
def Any (key : String) (val : Value) : Field := (key, val)

/-- Model of `String(key, val)` from logger.go (`zap.String`). -/
def StringField (key : String) (val : String) : Field := (key, Value.str val)

/-- The six zap log levels used by the facade. -/
inductive LevelTag where
  | debug | info | warn | error | panic | fatal
  deriving Repr, DecidableEq

/-- Time-encoder choice stored in the encoder config.  `epoch` is the
`zap.NewProductionEncoderConfig()` default; `iso8601` is
`zapcore.ISO8601TimeEncoder`; `custom` is the package's `timeFormatter`
with its Go layout string. -/
inductive TimeEncoder where
  | epoch
  | iso8601
  | custom (layout : String)
  deriving Repr, DecidableEq

/-- The slice of `zap.Config` the package touches after `json.Unmarshal`:
`Level` (canonical lowercase level text; `none` models the zero
`zap.AtomicLevel`, i.e. the key was absent), `Encoding`, `OutputPaths`,
`ErrorOutputPaths`, and the `EncodeTime` of the encoder config. -/
structure ZapConfig where
  level : Option String
  encoding : String
  outputPaths : List String
  errorOutputPaths : List String
  encodeTime : TimeEncoder
  deriving Repr, DecidableEq

/-- A built `*zap.Logger`: the configuration it was built from, the
accumulated caller-skip (from `zap.AddCallerSkip`), and the fields bound by
`With`. -/
structure Logger where
  config : ZapConfig
  callerSkip : Int
  boundFields : List Field
  deriving Repr, BEq

/-- One logging call delivered to the engine: the logger view it went
through, the level, the message, and the per-call fields. -/
structure LogEvent where
  logger : Logger
  level : LevelTag
  msg : String
  fields : List Field
  deriving Repr, BEq

/-- Process state: the package-level `defaultLogger` pointer (`none` = nil)
and the trace of logging calls made so far. -/
structure LogState where
  defaultLogger : Option Logger
  events : List LogEvent
  deriving Repr, BEq

/-- Environment oracle: `buildFail c = some e` means `zap.Config.Build`
fails with error `e` for environmental reasons (e.g. the output sink cannot
be opened) on configuration `c`; `none` means it succeeds. -/
structure Env where
  buildFail : ZapConfig → Option String

/-! ## Level, filename, and encoding resolution (logger.go lines 40–83) -/

/-- Model of `strings.ToUpper` on one character, modelled for ASCII.  (Go uppercases
full Unicode; every comparison the package makes is against ASCII level
keywords, for which the ASCII mapping agrees.) -/
def charToUpper (c : Char) : Char :=
  if 'a' ≤ c ∧ c ≤ 'z' then Char.ofNat (c.toNat - 32) else c

/-- Model of `strings.ToUpper`, modelled for ASCII. -/
def toUpper (s : String) : String := String.mk (s.data.map charToUpper)

/-- The `switch strings.ToUpper(level)` of logger.go lines 45–57: case
variations of debug/info/warn/error map to the uppercase name; anything else
defaults to `"DEBUG"`. -/
def resolveLevelName (level : String) : String :=
  match toUpper level with
  | "DEBUG" => "DEBUG"
  | "INFO" => "INFO"
  | "WARN" => "WARN"
  | "ERROR" => "ERROR"
  | _ => "DEBUG"

/-- Logger.go lines 40–42: in save mode an empty filename defaults to
`"out.log"`. -/
def resolveFilename (isSave : Bool) (filename : String) : String :=
  if isSave && filename = "" then "out.log" else filename

/-- Logger.go lines 61–75: file mode forces `"json"`; console mode picks
`"json"` exactly when the first variadic `encodingType` argument is
`"json"`, else `"console"`. -/
def resolveEncoding (isSave : Bool) (encodingType : List String) : String :=
  if isSave then "json"
  else
    match encodingType with
    | e :: _ => if e = "json" then "json" else "console"
    | [] => "console"

/-- The raw configuration string assembled in file mode (logger.go lines
64–69), with the level name, encoding, and filename interpolated by
`fmt.Sprintf` into the raw-string template (whitespace reproduced). -/
def fileConfigJSON (levelName encoding filename : String) : String :=
  "\x7b\n      \t\t\"level\": \"" ++ levelName ++
  "\",\n      \t\t\"encoding\": \"" ++ encoding ++
  "\",\n      \t\t\"outputPaths\": [\"" ++ filename ++
  "\"],\n      \t\t\"errorOutputPaths\": [\"" ++ filename ++
  "\"]\n      \t\x7d"

/-- The raw configuration string assembled in console mode (logger.go lines
77–82): fixed `stdout` paths, interpolated level name and encoding. -/
def consoleConfigJSON (levelName encoding : String) : String :=
  "\x7b\n      \t\t\"level\": \"" ++ levelName ++
  "\",\n            \"encoding\": \"" ++ encoding ++
  "\",\n      \t\t\"outputPaths\": [\"stdout\"],\n            \"errorOutputPaths\": [\"stdout\"]\n\t\t\x7d"

/-! ## A model of `encoding/json` parsing (`json.Unmarshal`, logger.go line 86)

The parser follows the JSON grammar `encoding/json` accepts: arbitrary
whitespace between tokens, strings with the standard escapes (a lone
surrogate from `\u` decodes to U+FFFD as Go does; surrogate-pair joining is
not modelled — no claim exercises it), numbers without redundant leading
zeros, and full-document consumption. -/

/-- A parsed JSON value.  Numbers keep their raw token (no numeric field of
`zap.Config` is ever populated by this package). -/
inductive JVal where
  | null
  | jbool (b : Bool)
  | num (token : String)
  | jstr (s : String)
  | arr (xs : List JVal)
  | obj (kvs : List (String × JVal))
  deriving Repr, BEq

def isJsonWs (c : Char) : Bool :=
  c = ' ' || c = '\t' || c = '\n' || c = '\r'

def skipWs : List Char → List Char
  | c :: cs => if isJsonWs c then skipWs cs else c :: cs
  | [] => []

def hexVal (c : Char) : Option Nat :=
  if '0' ≤ c ∧ c ≤ '9' then some (c.toNat - '0'.toNat)
  else if 'a' ≤ c ∧ c ≤ 'f' then some (c.toNat - 'a'.toNat + 10)
  else if 'A' ≤ c ∧ c ≤ 'F' then some (c.toNat - 'A'.toNat + 10)
  else none

def escapeChar : Char → Option Char
  | '"' => some '"'
  | '\\' => some '\\'
  | '/' => some '/'
  | 'b' => some (Char.ofNat 8)
  | 'f' => some (Char.ofNat 12)
  | 'n' => some '\n'
  | 'r' => some '\r'
  | 't' => some '\t'
  | _ => none

/-- Parse the body of a JSON string after its opening quote; returns the
decoded characters and the input after the closing quote.  Unescaped control
characters are rejected, as `encoding/json` does. -/
def parseStringBody : List Char → Option (List Char × List Char)
  | [] => none
  | '"' :: rest => some ([], rest)
  | '\\' :: 'u' :: h1 :: h2 :: h3 :: h4 :: rest =>
    (match hexVal h1, hexVal h2, hexVal h3, hexVal h4 with
     | some a, some b, some c, some d =>
       let code := ((a * 16 + b) * 16 + c) * 16 + d
       let ch := if 0xd800 ≤ code ∧ code ≤ 0xdfff then Char.ofNat 0xfffd else Char.ofNat code
       (parseStringBody rest).map (fun p => (ch :: p.1, p.2))
     | _, _, _, _ => none)
  | '\\' :: c :: rest =>
    (match escapeChar c with
     | some e => (parseStringBody rest).map (fun p => (e :: p.1, p.2))
     | none => none)
  | c :: rest =>
    if c.toNat < 0x20 then none
    else (parseStringBody rest).map (fun p => (c :: p.1, p.2))

/-- Longest prefix of decimal digits. -/
def takeDigits : List Char → (List Char × List Char)
  | c :: cs =>
    if c.isDigit then
      let p := takeDigits cs
      (c :: p.1, p.2)
    else ([], c :: cs)
  | [] => ([], [])

/-- Exponent part of a JSON number (optional). -/
def parseExpPart (acc : List Char) (cs : List Char) : Option (List Char × List Char) :=
  match cs with
  | e :: rest =>
    if e = 'e' ∨ e = 'E' then
      let sgnSplit : List Char × List Char :=
        match rest with
        | s :: r => if s = '+' ∨ s = '-' then ([s], r) else ([], rest)
        | [] => ([], [])
      match sgnSplit.2 with
      | c :: r =>
        if c.isDigit then
          let p := takeDigits r
          some (acc ++ [e] ++ sgnSplit.1 ++ c :: p.1, p.2)
        else none
      | [] => none
    else some (acc, cs)
  | [] => some (acc, [])

/-- Fraction part of a JSON number (optional), then the exponent part. -/
def parseFracPart (acc : List Char) (cs : List Char) : Option (List Char × List Char) :=
  match cs with
  | '.' :: rest =>
    (match rest with
     | c :: r =>
       if c.isDigit then
         let p := takeDigits r
         parseExpPart (acc ++ '.' :: c :: p.1) p.2
       else none
     | [] => none)
  | _ => parseExpPart acc cs

/-- A JSON number token: optional minus, integer part without redundant
leading zeros, optional fraction and exponent. -/
def parseNumber (cs : List Char) : Option (List Char × List Char) :=
  let negSplit : List Char × List Char :=
    match cs with
    | '-' :: r => (['-'], r)
    | _ => ([], cs)
  match negSplit.2 with
  | '0' :: r => parseFracPart (negSplit.1 ++ ['0']) r
  | c :: r =>
    if c.isDigit then
      let p := takeDigits r
      parseFracPart (negSplit.1 ++ c :: p.1) p.2
    else none
  | [] => none

mutual

/-- Parse one JSON value; the fuel strictly decreases at every nested
parse, and `parseJSON` supplies enough for any input of the given length. -/
def parseValue : Nat → List Char → Option (JVal × List Char)
  | 0, _ => none
  | Nat.succ fuel, cs =>
    match skipWs cs with
    | '"' :: rest => (parseStringBody rest).map (fun p => (JVal.jstr (String.mk p.1), p.2))
    | 't' :: 'r' :: 'u' :: 'e' :: rest => some (JVal.jbool true, rest)
    | 'f' :: 'a' :: 'l' :: 's' :: 'e' :: rest => some (JVal.jbool false, rest)
    | 'n' :: 'u' :: 'l' :: 'l' :: rest => some (JVal.null, rest)
    | '[' :: rest =>
      (match skipWs rest with
       | ']' :: r => some (JVal.arr [], r)
       | cs' => (parseElems fuel cs').map (fun p => (JVal.arr p.1, p.2)))
    | '\x7b' :: rest =>
      (match skipWs rest with
       | '\x7d' :: r => some (JVal.obj [], r)
       | cs' => (parseMembers fuel cs').map (fun p => (JVal.obj p.1, p.2)))
    | cs' => (parseNumber cs').map (fun p => (JVal.num (String.mk p.1), p.2))

/-- Parse a non-empty comma-separated list of array elements up to `]`. -/
def parseElems : Nat → List Char → Option (List JVal × List Char)
  | 0, _ => none
  | Nat.succ fuel, cs =>
    match parseValue fuel cs with
    | some (v, rest) =>
      (match skipWs rest with
       | ',' :: r => (parseElems fuel r).map (fun p => (v :: p.1, p.2))
       | ']' :: r => some ([v], r)
       | _ => none)
    | none => none

/-- Parse a non-empty comma-separated list of object members up to the
closing brace. -/
def parseMembers : Nat → List Char → Option (List (String × JVal) × List Char)
  | 0, _ => none
  | Nat.succ fuel, cs =>
    match skipWs cs with
    | '"' :: rest =>
      (match parseStringBody rest with
       | some (k, rest1) =>
         (match skipWs rest1 with
          | ':' :: rest2 =>
            (match parseValue fuel rest2 with
             | some (v, rest3) =>
               (match skipWs rest3 with
                | ',' :: r => (parseMembers fuel r).map (fun p => ((String.mk k, v) :: p.1, p.2))
                | '\x7d' :: r => some ([(String.mk k, v)], r)
                | _ => none)
             | none => none)
          | _ => none)
       | none => none)
    | _ => none

end

/-- Parse a complete JSON document: one value, then only trailing
whitespace.  Two fuel units per character over-approximate the parser's
needs on any input. -/
def parseJSON (s : String) : Option JVal :=
  match parseValue (2 * s.length + 4) s.data with
  | some (v, rest) => if skipWs rest = [] then some v else none
  | none => none

/-! ## Decoding the parsed document into `zap.Config` -/

/-- Last-wins association lookup: `encoding/json` assigns struct fields in
document order, so a duplicated key keeps its final value.  (The
case-insensitive fallback match of `encoding/json` is not modelled; every
key this package assembles is matched exactly.) -/
def lookupLast (kvs : List (String × JVal)) (k : String) : Option JVal :=
  match kvs with
  | [] => none
  | (k', v) :: rest =>
    match lookupLast rest k with
    | some w => some w
    | none => if k' = k then some v else none

/-- Model of `zapcore.Level.UnmarshalText`: the exact lowercase or uppercase level
words (mixed case is rejected); the empty string means info.  Returns the
canonical lowercase name. -/
def levelFromText : String → Option String
  | "debug" => some "debug"
  | "DEBUG" => some "debug"
  | "info" => some "info"
  | "INFO" => some "info"
  | "" => some "info"
  | "warn" => some "warn"
  | "WARN" => some "warn"
  | "error" => some "error"
  | "ERROR" => some "error"
  | "dpanic" => some "dpanic"
  | "DPANIC" => some "dpanic"
  | "panic" => some "panic"
  | "PANIC" => some "panic"
  | "fatal" => some "fatal"
  | "FATAL" => some "fatal"
  | _ => none

/-- Decode the `level` key into the `zap.AtomicLevel` field: absent key or
JSON null leave the zero level (`none`); a string goes through
`UnmarshalText`; any other JSON type is an unmarshal error. -/
def decodeLevelField (kvs : List (String × JVal)) : Option (Option String) :=
  match lookupLast kvs "level" with
  | none => some none
  | some JVal.null => some none
  | some (JVal.jstr s) => (levelFromText s).map some
  | some _ => none

/-- Decode a string-typed key: absent or null keeps the zero value `""`; a
JSON string is taken verbatim; anything else is an unmarshal error. -/
def decodeStringField (kvs : List (String × JVal)) (k : String) : Option String :=
  match lookupLast kvs k with
  | none => some ""
  | some JVal.null => some ""
  | some (JVal.jstr s) => some s
  | some _ => none

/-- One element of a `[]string`: a string, or null (which leaves the zero
value, per `encoding/json`'s null-is-a-no-op rule). -/
def decodeStringItem : JVal → Option String
  | JVal.jstr s => some s
  | JVal.null => some ""
  | _ => none

/-- Decode a `[]string`-typed key: absent or null gives the nil slice. -/
def decodeStringArrayField (kvs : List (String × JVal)) (k : String) :
    Option (List String) :=
  match lookupLast kvs k with
  | none => some []
  | some JVal.null => some []
  | some (JVal.arr xs) => xs.mapM decodeStringItem
  | some _ => none

/-- Model of `json.Unmarshal([]byte(js), &config)` for the `zap.Config` fields this
package touches: the document must parse as a whole and be an object (or
null, which leaves the zero config); keys other than the four read here are
ignored, matching `encoding/json`'s treatment of unknown keys.  The time
encoder starts at the production default. -/
def jsonUnmarshalConfig (js : String) : Option ZapConfig :=
  match parseJSON js with
  | some (JVal.obj kvs) =>
    match decodeLevelField kvs, decodeStringField kvs "encoding",
          decodeStringArrayField kvs "outputPaths",
          decodeStringArrayField kvs "errorOutputPaths" with
    | some lvl, some enc, some ops, some eps =>
      some ⟨lvl, enc, ops, eps, TimeEncoder.epoch⟩
    | _, _, _, _ => none
  | some JVal.null => some ⟨none, "", [], [], TimeEncoder.epoch⟩
  | _ => none

/-- Model of `zap.Config.Build` (modelled): fails when the encoding is not a
registered encoder (`"json"` and `"console"` are the registered ones), when
the sink cannot be opened (the `Env.buildFail` oracle), or when the level
was never set (zap's "missing Level" check); otherwise it returns a fresh
logger embodying the configuration, with no caller skip and no bound
fields. -/
def buildConfig (env : Env) (c : ZapConfig) : Except String Logger :=
  if c.encoding ≠ "json" ∧ c.encoding ≠ "console" then
    Except.error ("no encoder registered for name " ++ c.encoding)
  else
    match env.buildFail c with
    | some e => Except.error e
    | none =>
      if c.level = none then Except.error "missing Level"
      else Except.ok ⟨c, 0, []⟩

/-! ## A model of `fmt.Sprintf`

Only what the source exercises is modelled: the `%s`, `%t`, `%d`, `%v`
verbs, `%%`, and fmt's notice forms for a wrong-typed operand, a missing
operand, extra operands, and a trailing `%`.  Width/flag syntax never
appears in the source's format strings and is not modelled.  Maps render in
insertion order (fmt sorts keys; the facade never formats a map). -/

def goBool (b : Bool) : String := if b then "true" else "false"

/-- The Go type name fmt prints inside its notices. -/
def goTypeName : Value → String
  | Value.str _ => "string"
  | Value.int _ => "int"
  | Value.bool _ => "bool"
  | Value.vmap _ => "map[string]interface \x7b\x7d"

mutual

/-- Model of `%v` rendering of a dynamic value. -/
def verbV : Value → String
  | Value.str s => s
  | Value.int n => toString n
  | Value.bool b => goBool b
  | Value.vmap kvs => "map[" ++ verbVEntries kvs ++ "]"

def verbVEntries : List (String × Value) → String
  | [] => ""
  | [(k, v)] => k ++ ":" ++ verbV v
  | (k, v) :: rest => k ++ ":" ++ verbV v ++ " " ++ verbVEntries rest

end

/-- Model of `%s` rendering: strings verbatim; composites recurse; other types get
the `%!s(type=value)` notice. -/
def verbS (v : Value) : String :=
  match v with
  | Value.str s => s
  | Value.vmap kvs => "map[" ++ verbVEntries kvs ++ "]"
  | v => "%!s(" ++ goTypeName v ++ "=" ++ verbV v ++ ")"

/-- Model of `%t` rendering: booleans, or the wrong-type notice. -/
def verbT (v : Value) : String :=
  match v with
  | Value.bool b => goBool b
  | v => "%!t(" ++ goTypeName v ++ "=" ++ verbV v ++ ")"

/-- Model of `%d` rendering: integers, or the wrong-type notice. -/
def verbD (v : Value) : String :=
  match v with
  | Value.int n => toString n
  | v => "%!d(" ++ goTypeName v ++ "=" ++ verbV v ++ ")"

/-- fmt's trailer for operands left over after the format is exhausted. -/
def extraNotice (args : List Value) : String :=
  match args with
  | [] => ""
  | args =>
    "%!(EXTRA " ++
    String.intercalate ", " (args.map (fun a => goTypeName a ++ "=" ++ verbV a)) ++ ")"

def sprintfAux : List Char → List Value → String
  | [], args => extraNotice args
  | ['%'], args => "%!(NOVERB)" ++ extraNotice args
  | '%' :: '%' :: rest, args => "%" ++ sprintfAux rest args
  | '%' :: c :: rest, args =>
    (match args with
     | [] => "%!" ++ String.singleton c ++ "(MISSING)" ++ sprintfAux rest []
     | a :: args' =>
       (match c with
        | 's' => verbS a
        | 't' => verbT a
        | 'd' => verbD a
        | 'v' => verbV a
        | _ => "%!" ++ String.singleton c ++ "(" ++ goTypeName a ++ "=" ++ verbV a ++ ")")
       ++ sprintfAux rest args')
  | c :: rest, args => String.singleton c ++ sprintfAux rest args

/-- Model of `fmt.Sprintf` over the modelled verbs. -/
def sprintf (format : String) (args : List Value) : String :=
  sprintfAux format.data args

/-! ## `InitLogger` (logger.go lines 36–111) -/

/-- The encoder-config override of logger.go lines 91–96:
`config.EncoderConfig = zap.NewProductionEncoderConfig()` (whose time
encoder is then replaced unconditionally), `EncodeTime = timeFormatter`
with the layout `"2006-01-02 15:04:05.000"`, or `zapcore.ISO8601TimeEncoder`
in save mode. -/
def withTimeEncoder (isSave : Bool) (c : ZapConfig) : ZapConfig :=
  { c with
    encodeTime :=
      if isSave then TimeEncoder.iso8601
      else TimeEncoder.custom "2006-01-02 15:04:05.000" }

/-- The interpolated summary message of logger.go lines 104–108.  The file
branch reports the (already defaulted) filename and the *raw* `level`
argument; the console branch omits the filename. -/
def initSummaryMsg (isSave : Bool) (filename level encoding : String) : String :=
  if isSave then
    sprintf "initialize logger finish, base config is isSave=%t, filename=%s, level=%s, encoding=%s"
      [Value.bool isSave, Value.str filename, Value.str level, Value.str encoding]
  else
    sprintf "initialize logger finish, base config is isSave=%t, level=%s, encoding=%s"
      [Value.bool isSave, Value.str level, Value.str encoding]

/-- One zap logger emission: `l.Debug/Info/…(msg, fields...)` appends a
record through the logger view `l`.  (For the panic and fatal levels the
engine additionally panics or exits after the write; that control effect is
below the event-trace altitude.) -/
def Logger.log (l : Logger) (lvl : LevelTag) (msg : String) (fields : List Field)
    (s : LogState) : LogState :=
  { s with events := s.events ++ [⟨l, lvl, msg, fields⟩] }

/-- Model of `logger.WithOptions(zap.AddCallerSkip(n))`: a copy of the logger with
`n` more caller frames skipped; the original is not mutated. -/
def Logger.addCallerSkip (l : Logger) (n : Int) : Logger :=
  { l with callerSkip := l.callerSkip + n }

/-- Model of `logger.With(fields...)`: a copy with the fields appended to the bound
fields. -/
def Logger.withFields (l : Logger) (fields : List Field) : Logger :=
  { l with boundFields := l.boundFields ++ fields }

/-- Model of `InitLogger` (logger.go lines 36–111): defaults the filename in save
mode, resolves the level keyword and the encoding, assembles the JSON
configuration text, unmarshals it, overrides the time encoder
(`config.EncoderConfig = zap.NewProductionEncoderConfig()` followed by the
`EncodeTime` assignment), builds, stores the result in `defaultLogger`, and
reports the resolved configuration through `Infof`.

Go's multi-assignment `defaultLogger, err = config.Build()` stores the nil
logger Build returns on failure, so that error path clears `defaultLogger`;
the earlier unmarshal error path leaves the state untouched.  The `Infof`
call happens after `defaultLogger` is assigned, so `getLogger` inside it
takes the non-nil branch; the emission is written here in that unfolded
form (`Infof_after_success` below proves the unfolding against `Infof`). -/
def InitLogger (env : Env) (isSave : Bool) (filename₀ level : String)
    (encodingType : List String) (s : LogState) : Except String Unit × LogState :=
  let filename := resolveFilename isSave filename₀
  let levelName := resolveLevelName level
  let encoding := resolveEncoding isSave encodingType
  let js :=
    if isSave then fileConfigJSON levelName encoding filename
    else consoleConfigJSON levelName encoding
  match jsonUnmarshalConfig js with
  | none => (Except.error "json unmarshal error", s)
  | some config₀ =>
    let config := withTimeEncoder isSave config₀
    match buildConfig env config with
    | Except.error e => (Except.error e, { s with defaultLogger := none })
    | Except.ok l =>
      let s₁ : LogState := { s with defaultLogger := some l }
      let msg := initSummaryMsg isSave filename level encoding
      (Except.ok (), (l.addCallerSkip 1).log LevelTag.info msg [] s₁)

/-! ## Lazy accessors and the facade (logger.go lines 17–26, 123–202, 278–287) -/

/-- Model of `getLogger` (logger.go lines 17–26): when `defaultLogger` is nil it
runs the default console/debug initialization and `log.Fatal`s on error
(the `none` result models process termination); it returns the logger with
one extra caller frame skipped. -/
def getLogger (env : Env) (s : LogState) : Option (Logger × LogState) :=
  match s.defaultLogger with
  | some l => some (l.addCallerSkip 1, s)
  | none =>
    match InitLogger env false "" "debug" [] s with
    | (Except.ok _, s') =>
      (match s'.defaultLogger with
       | some l => some (l.addCallerSkip 1, s')
       | none => none)
    | (Except.error _, _) => none

/-- Model of `GetLogger(skip)` (logger.go lines 278–287): identical to `getLogger`
except that the caller-supplied skip count is used. -/
def GetLogger (env : Env) (skip : Int) (s : LogState) : Option (Logger × LogState) :=
  match s.defaultLogger with
  | some l => some (l.addCallerSkip skip, s)
  | none =>
    match InitLogger env false "" "debug" [] s with
    | (Except.ok _, s') =>
      (match s'.defaultLogger with
       | some l => some (l.addCallerSkip skip, s')
       | none => none)
    | (Except.error _, _) => none

/-- An opaque `context.Context`: `ctx.Value` keyed by strings.  `none`
models a nil context. -/
abbrev RequestContext := String → Option Value

/-- The four trace keys read by `Ctx`, in source order. -/
def traceKeys : List String := ["X-B3-TraceId", "X-B3-SpanId", "X-B3-ParentSpanId", "X-Span-Name"]

/-- The `fieldsMap` loop of `Ctx` (logger.go lines 124–133): the found
key/value pairs, absent keys omitted. -/
def extractTraceFields (ctx : Option RequestContext) : List (String × Value) :=
  match ctx with
  | none => []
  | some c => traceKeys.filterMap (fun k => (c k).map (fun v => (k, v)))

/-- Model of `Ctx` (logger.go lines 123–140): with at least one trace key found the
logger is enriched with the single `Any("context", fieldsMap)` field,
otherwise the plain lazily-obtained logger is returned. -/
def Ctx (env : Env) (ctx : Option RequestContext) (s : LogState) :
    Option (Logger × LogState) :=
  let fieldsMap := extractTraceFields ctx
  if fieldsMap.length > 0 then
    (getLogger env s).map (fun p => (p.1.withFields [Any "context" (Value.vmap fieldsMap)], p.2))
  else
    getLogger env s

/-- Model of `Debug` (logger.go lines 145–147). -/
def Debug (env : Env) (msg : String) (fields : List Field) (s : LogState) : Option LogState :=
  (getLogger env s).map (fun p => p.1.log LevelTag.debug msg fields p.2)

/-- Model of `Info` (logger.go lines 150–152). -/
def Info (env : Env) (msg : String) (fields : List Field) (s : LogState) : Option LogState :=
  (getLogger env s).map (fun p => p.1.log LevelTag.info msg fields p.2)

/-- Model of `Warn` (logger.go lines 155–157). -/
def Warn (env : Env) (msg : String) (fields : List Field) (s : LogState) : Option LogState :=
  (getLogger env s).map (fun p => p.1.log LevelTag.warn msg fields p.2)

/-- Model of `Error` (logger.go lines 160–162). -/
def Error (env : Env) (msg : String) (fields : List Field) (s : LogState) : Option LogState :=
  (getLogger env s).map (fun p => p.1.log LevelTag.error msg fields p.2)

/-- Model of `Panic` (logger.go lines 165–167). -/
def Panic (env : Env) (msg : String) (fields : List Field) (s : LogState) : Option LogState :=
  (getLogger env s).map (fun p => p.1.log LevelTag.panic msg fields p.2)

/-- Model of `Fatal` (logger.go lines 170–172). -/
def Fatal (env : Env) (msg : String) (fields : List Field) (s : LogState) : Option LogState :=
  (getLogger env s).map (fun p => p.1.log LevelTag.fatal msg fields p.2)

/-- Model of `Debugf` (logger.go lines 175–177): `getLogger().Debug(fmt.Sprintf(format, a...))`. -/
def Debugf (env : Env) (format : String) (a : List Value) (s : LogState) : Option LogState :=
  (getLogger env s).map (fun p => p.1.log LevelTag.debug (sprintf format a) [] p.2)

/-- Model of `Infof` (logger.go lines 180–182). -/
def Infof (env : Env) (format : String) (a : List Value) (s : LogState) : Option LogState :=
  (getLogger env s).map (fun p => p.1.log LevelTag.info (sprintf format a) [] p.2)

/-- Model of `Warnf` (logger.go lines 185–187). -/
def Warnf (env : Env) (format : String) (a : List Value) (s : LogState) : Option LogState :=
  (getLogger env s).map (fun p => p.1.log LevelTag.warn (sprintf format a) [] p.2)

/-- Model of `Errorf` (logger.go lines 190–192). -/
def Errorf (env : Env) (format : String) (a : List Value) (s : LogState) : Option LogState :=
  (getLogger env s).map (fun p => p.1.log LevelTag.error (sprintf format a) [] p.2)

/-- Model of `Fatalf` (logger.go lines 195–197). -/
def Fatalf (env : Env) (format : String) (a : List Value) (s : LogState) : Option LogState :=
  (getLogger env s).map (fun p => p.1.log LevelTag.fatal (sprintf format a) [] p.2)

/-- Model of `WithFields` (logger.go lines 200–202). -/
def WithFields (env : Env) (fields : List Field) (s : LogState) : Option (Logger × LogState) :=
  (getLogger env s).map (fun p => (p.1.withFields fields, p.2))

/-- Which levels have a formatted `Levelf` wrapper defined in logger.go
(lines 174–197): `Debugf`, `Infof`, `Warnf`, `Errorf`, and `Fatalf` exist;
the file defines no `Panicf`. -/
def hasFormattedVariant : LevelTag → Bool
  | LevelTag.debug => true
  | LevelTag.info => true
  | LevelTag.warn => true
  | LevelTag.error => true
  | LevelTag.panic => false
  | LevelTag.fatal => true

/-! ## Concrete instances and helper lemmas -/

/-- An environment in which `zap.Config.Build` always succeeds. -/
def okEnv : Env := ⟨fun _ => none⟩

/-- An environment in which every sink open fails. -/
def failEnv : Env := ⟨fun _ => some "open sink: permission denied"⟩

/-- Fresh process state: nil `defaultLogger`, no emissions. -/
def initialState : LogState := ⟨none, []⟩

/-- The configuration `InitLogger(false, "", "debug")` resolves to: console
encoding, debug level, stdout paths, the custom human-readable time
layout. -/
def defaultConsoleConfig : ZapConfig :=
  ⟨some "debug", "console", ["stdout"], ["stdout"], TimeEncoder.custom "2006-01-02 15:04:05.000"⟩

/-- The configuration `InitLogger(true, "", "debug")` resolves to: JSON
encoding, debug level, the default `out.log` path for output and error
output, ISO-8601 timestamps. -/
def fileDefaultConfig : ZapConfig :=
  ⟨some "debug", "json", ["out.log"], ["out.log"], TimeEncoder.iso8601⟩

/-- The configuration text `InitLogger` assembles for given arguments
(equal to the `js` local of logger.go by unfolding). -/
def assembledConfigJSON (isSave : Bool) (fn lvl : String) (enc : List String) : String :=
  if isSave then
    fileConfigJSON (resolveLevelName lvl) (resolveEncoding isSave enc) (resolveFilename isSave fn)
  else consoleConfigJSON (resolveLevelName lvl) (resolveEncoding isSave enc)

theorem resolveLevelName_cases (s : String) :
    resolveLevelName s = "DEBUG" ∨ resolveLevelName s = "INFO" ∨
    resolveLevelName s = "WARN" ∨ resolveLevelName s = "ERROR" := by
  unfold resolveLevelName
  split <;> simp

theorem resolveLevelName_idem (s : String) :
    resolveLevelName (resolveLevelName s) = resolveLevelName s := by
  rcases resolveLevelName_cases s with h | h | h | h <;> rw [h] <;> decide

/-- Unmarshalling the console-mode configuration text always succeeds, for
every resolved level name and either encoding keyword, and yields stdout
output paths. -/
theorem unmarshal_console (lvl : String) (enc : String)
    (henc : enc = "json" ∨ enc = "console") :
    jsonUnmarshalConfig (consoleConfigJSON (resolveLevelName lvl) enc) =
      some ⟨some (String.mk ((resolveLevelName lvl).data.map Char.toLower)), enc,
            ["stdout"], ["stdout"], TimeEncoder.epoch⟩ := by
  rcases resolveLevelName_cases lvl with h | h | h | h <;>
    rcases henc with he | he <;> rw [h, he] <;> decide

/-- On a registered encoding and a set level, `buildConfig` is exactly the
environment oracle: an oracle error, or the fresh logger. -/
theorem buildConfig_oracle (env : Env) (c : ZapConfig)
    (henc : c.encoding = "json" ∨ c.encoding = "console") (hlvl : c.level ≠ none) :
    buildConfig env c =
      match env.buildFail c with
      | some e => Except.error e
      | none => Except.ok ⟨c, 0, []⟩ := by
  unfold buildConfig
  have hcond : ¬(c.encoding ≠ "json" ∧ c.encoding ≠ "console") := by
    rcases henc with h | h <;> simp [h]
  rw [if_neg hcond]
  cases hb : env.buildFail c with
  | some e => rfl
  | none => rw [if_neg hlvl]

/-- Closed form of `InitLogger(false, "", "debug")` — the lazy default:
it fails exactly when the build oracle rejects the default console
configuration, and on success it installs the fresh default logger and
records the one summary line. -/
theorem InitLogger_default (env : Env) (s : LogState) :
    InitLogger env false "" "debug" [] s =
      match env.buildFail defaultConsoleConfig with
      | some e => (Except.error e, { s with defaultLogger := none })
      | none =>
        (Except.ok (),
         { defaultLogger := some ⟨defaultConsoleConfig, 0, []⟩,
           events := s.events ++
             [⟨⟨defaultConsoleConfig, 1, []⟩, LevelTag.info,
               initSummaryMsg false "" "debug" "console", []⟩] }) := by
  have hjs : jsonUnmarshalConfig (consoleConfigJSON (resolveLevelName "debug") (resolveEncoding false [])) =
      some ⟨some "debug", "console", ["stdout"], ["stdout"], TimeEncoder.epoch⟩ := by decide
  have hw : withTimeEncoder false (⟨some "debug", "console", ["stdout"], ["stdout"], TimeEncoder.epoch⟩ : ZapConfig) =
      defaultConsoleConfig := rfl
  simp [InitLogger, hjs, hw]
  rw [buildConfig_oracle env defaultConsoleConfig (Or.inr rfl) (by decide)]
  cases h : env.buildFail defaultConsoleConfig with
  | some e => rfl
  | none =>
    simp only [Logger.log, Logger.addCallerSkip]
    rfl

/-- The caller-visible result of `InitLogger` depends only on the assembled
configuration text and the build oracle (the emitted summary line does not
enter the returned value). -/
theorem InitLogger_fst (env : Env) (isSave : Bool) (fn lvl : String)
    (enc : List String) (s : LogState) :
    (InitLogger env isSave fn lvl enc s).1 =
      match jsonUnmarshalConfig (assembledConfigJSON isSave fn lvl enc) with
      | none => Except.error "json unmarshal error"
      | some c =>
        match buildConfig env (withTimeEncoder isSave c) with
        | Except.error e => Except.error e
        | Except.ok _ => Except.ok () := by
  simp only [InitLogger, assembledConfigJSON]
  split
  · rfl
  · split <;> rfl

/-- Closed form of `InitLogger`, case-analysed over the unmarshal and build
outcomes. -/
theorem InitLogger_cases (env : Env) (isSave : Bool) (fn lvl : String)
    (enc : List String) (s : LogState) :
    InitLogger env isSave fn lvl enc s =
      match jsonUnmarshalConfig (assembledConfigJSON isSave fn lvl enc) with
      | none => (Except.error "json unmarshal error", s)
      | some c =>
        match buildConfig env (withTimeEncoder isSave c) with
        | Except.error e => (Except.error e, { s with defaultLogger := none })
        | Except.ok l =>
          (Except.ok (),
           (l.addCallerSkip 1).log LevelTag.info
             (initSummaryMsg isSave (resolveFilename isSave fn) lvl (resolveEncoding isSave enc)) []
             { s with defaultLogger := some l }) := by
  simp only [InitLogger, assembledConfigJSON]

/-- Inside `InitLogger`, the summary `Infof` runs with `defaultLogger`
freshly assigned, so it reduces to one emission through that logger with
one extra caller frame skipped (the unfolding used in `InitLogger`'s
definition). -/
theorem Infof_after_success (env : Env) (format : String) (a : List Value)
    (s : LogState) (l : Logger) (h : s.defaultLogger = some l) :
    Infof env format a s =
      some ((l.addCallerSkip 1).log LevelTag.info (sprintf format a) [] s) := by
  simp [Infof, getLogger, h]

/-! ## Claims -/

/-- C1: the level keyword is matched case-insensitively — every case
variation of debug/info/warn/error resolves to the corresponding level,
any other string (the empty string included) resolves to DEBUG — and an
unrecognized level never causes `InitLogger` to return an error: the
caller-visible result equals that of the canonical resolved level. -/
theorem C1_level_case_insensitive (lvl : String) :
    (toUpper lvl = "DEBUG" → resolveLevelName lvl = "DEBUG") ∧
    (toUpper lvl = "INFO" → resolveLevelName lvl = "INFO") ∧
    (toUpper lvl = "WARN" → resolveLevelName lvl = "WARN") ∧
    (toUpper lvl = "ERROR" → resolveLevelName lvl = "ERROR") ∧
    (toUpper lvl ∉ (["DEBUG", "INFO", "WARN", "ERROR"] : List String) →
      resolveLevelName lvl = "DEBUG") ∧
    (∀ (env : Env) (isSave : Bool) (fn : String) (enc : List String) (s : LogState),
      (InitLogger env isSave fn lvl enc s).1 =
        (InitLogger env isSave fn (resolveLevelName lvl) enc s).1) := by
  refine ⟨?_, ?_, ?_, ?_, ?_, ?_⟩
  · intro h; unfold resolveLevelName; rw [h]; decide
  · intro h; unfold resolveLevelName; rw [h]; decide
  · intro h; unfold resolveLevelName; rw [h]; decide
  · intro h; unfold resolveLevelName; rw [h]; decide
  · intro h
    unfold resolveLevelName
    split <;> simp_all
  · intro env isSave fn enc s
    have hjs : assembledConfigJSON isSave fn (resolveLevelName lvl) enc =
        assembledConfigJSON isSave fn lvl enc := by
      unfold assembledConfigJSON
      rw [resolveLevelName_idem]
    rw [InitLogger_fst, InitLogger_fst, hjs]

/-- Witness for C1 at concrete level strings. -/
theorem C1_witness :
    resolveLevelName "dEbUg" = "DEBUG" ∧ resolveLevelName "iNfO" = "INFO" ∧
    resolveLevelName "WaRn" = "WARN" ∧ resolveLevelName "ErRoR" = "ERROR" ∧
    resolveLevelName "verbose" = "DEBUG" ∧ resolveLevelName "" = "DEBUG" ∧
    (InitLogger okEnv false "" "verbose" [] initialState).1 =
      (InitLogger okEnv false "" (resolveLevelName "verbose") [] initialState).1 :=
  ⟨(C1_level_case_insensitive "dEbUg").1 (by decide),
   (C1_level_case_insensitive "iNfO").2.1 (by decide),
   (C1_level_case_insensitive "WaRn").2.2.1 (by decide),
   (C1_level_case_insensitive "ErRoR").2.2.2.1 (by decide),
   (C1_level_case_insensitive "verbose").2.2.2.2.1 (by decide),
   (C1_level_case_insensitive "").2.2.2.2.1 (by decide),
   (C1_level_case_insensitive "verbose").2.2.2.2.2 okEnv false "" [] initialState⟩

/-- C2: `Ctx` extracts exactly the four trace keys that have a value in the
context — absent keys omitted, in fixed source order — and returns the
plain lazily-obtained logger when the context is nil or no key is found,
and otherwise returns that logger pre-bound with the single extra
`"context"` field holding exactly the found pairs; the extraction is a
total function. -/
theorem C2_ctx_trace_extraction (env : Env) (c : RequestContext) (s : LogState) :
    (∀ k v, (k, v) ∈ extractTraceFields (some c) ↔ k ∈ traceKeys ∧ c k = some v) ∧
    ((extractTraceFields (some c)).map Prod.fst =
      traceKeys.filter (fun k => (c k).isSome)) ∧
    Ctx env none s = getLogger env s ∧
    (extractTraceFields (some c) = [] → Ctx env (some c) s = getLogger env s) ∧
    (extractTraceFields (some c) ≠ [] →
      Ctx env (some c) s =
        (getLogger env s).map
          (fun p => (p.1.withFields [Any "context" (Value.vmap (extractTraceFields (some c)))], p.2))) := by
  refine ⟨?_, ?_, ?_, ?_, ?_⟩
  · intro k v
    simp only [extractTraceFields, List.mem_filterMap, Option.map_eq_some', Prod.mk.injEq]
    constructor
    · rintro ⟨a, ha, w, hw, rfl, rfl⟩; exact ⟨ha, hw⟩
    · rintro ⟨hk, hv⟩; exact ⟨k, hk, v, hv, rfl, rfl⟩
  · rcases h1 : c "X-B3-TraceId" with _ | v1 <;>
    rcases h2 : c "X-B3-SpanId" with _ | v2 <;>
    rcases h3 : c "X-B3-ParentSpanId" with _ | v3 <;>
    rcases h4 : c "X-Span-Name" with _ | v4 <;>
      simp [extractTraceFields, traceKeys, h1, h2, h3, h4]
  · simp [Ctx, extractTraceFields]
  · intro h; simp [Ctx, h]
  · intro h
    have hp : 0 < (extractTraceFields (some c)).length := List.length_pos.mpr h
    simp only [Ctx]
    rw [if_pos hp]

/-- Witness for C2: a context holding only a trace id yields exactly the
one-pair context field; a nil context yields the plain logger. -/
theorem C2_witness :
    Ctx okEnv (some (fun k => if k = "X-B3-TraceId" then some (Value.str "t1") else none))
        initialState =
      (getLogger okEnv initialState).map
        (fun p => (p.1.withFields
          [Any "context" (Value.vmap [("X-B3-TraceId", Value.str "t1")])], p.2)) ∧
    Ctx okEnv none initialState = getLogger okEnv initialState := by
  have h := C2_ctx_trace_extraction okEnv
    (fun k => if k = "X-B3-TraceId" then some (Value.str "t1") else none) initialState
  have he : extractTraceFields
      (some (fun k => if k = "X-B3-TraceId" then some (Value.str "t1") else none)) =
      [("X-B3-TraceId", Value.str "t1")] := rfl
  refine ⟨?_, h.2.2.1⟩
  have hne := h.2.2.2.2 (by rw [he]; exact List.cons_ne_nil _ _)
  rw [he] at hne
  exact hne

/-- C3: with `isSave = true` the resolved encoding is always `"json"` and
the whole behavior of `InitLogger` is independent of the `encodingType`
argument. -/
theorem C3_save_forces_json (env : Env) (fn lvl : String) (e₁ e₂ : List String)
    (s : LogState) :
    resolveEncoding true e₁ = "json" ∧
    InitLogger env true fn lvl e₁ s = InitLogger env true fn lvl e₂ s :=
  ⟨rfl, rfl⟩

/-- C4: in console mode the resolved encoding is `"json"` exactly when the
first `encodingType` argument is present and equals `"json"` (otherwise the
human-readable `"console"` encoding), and the assembled configuration
always unmarshals with stdout as both output paths. -/
theorem C4_console_encoding (fn lvl : String) (enc : List String) :
    (resolveEncoding false enc = "json" ↔ enc.head? = some "json") ∧
    (resolveEncoding false enc = "json" ∨ resolveEncoding false enc = "console") ∧
    jsonUnmarshalConfig (assembledConfigJSON false fn lvl enc) =
      some ⟨some (String.mk ((resolveLevelName lvl).data.map Char.toLower)),
            resolveEncoding false enc, ["stdout"], ["stdout"], TimeEncoder.epoch⟩ := by
  have hcases : resolveEncoding false enc = "json" ∨ resolveEncoding false enc = "console" := by
    unfold resolveEncoding
    rcases enc with _ | ⟨e, rest⟩
    · simp
    · by_cases he : e = "json" <;> simp [he]
  refine ⟨?_, hcases, ?_⟩
  · unfold resolveEncoding
    rcases enc with _ | ⟨e, rest⟩
    · simp
    · by_cases he : e = "json" <;> simp [he]
  · have : assembledConfigJSON false fn lvl enc =
        consoleConfigJSON (resolveLevelName lvl) (resolveEncoding false enc) := rfl
    rw [this]
    exact unmarshal_console lvl _ hcases

/-- C5: in save mode an empty filename resolves to the fixed non-empty
default `"out.log"`, which is used as both the output path and the
error-output path of the parsed configuration; a non-empty filename is used
unchanged. -/
theorem C5_default_filename (lvl fn : String) :
    resolveFilename true "" = "out.log" ∧
    ("out.log" : String) ≠ "" ∧
    jsonUnmarshalConfig (assembledConfigJSON true "" lvl []) =
      some ⟨some (String.mk ((resolveLevelName lvl).data.map Char.toLower)), "json",
            ["out.log"], ["out.log"], TimeEncoder.epoch⟩ ∧
    (fn ≠ "" → resolveFilename true fn = fn) := by
  refine ⟨rfl, by decide, ?_, ?_⟩
  · rcases resolveLevelName_cases lvl with h | h | h | h <;>
      · have hjs : assembledConfigJSON true "" lvl [] =
            fileConfigJSON (resolveLevelName lvl) "json" "out.log" := rfl
        rw [hjs, h]
        decide
  · intro h
    unfold resolveFilename
    simp [h]

/-- Witness for C5 at a concrete non-empty filename. -/
theorem C5_witness :
    resolveFilename true "" = "out.log" ∧
    ("out.log" : String) ≠ "" ∧
    jsonUnmarshalConfig (assembledConfigJSON true "" "info" []) =
      some ⟨some "info", "json", ["out.log"], ["out.log"], TimeEncoder.epoch⟩ ∧
    resolveFilename true "my.log" = "my.log" := by
  obtain ⟨a, b, hc, d⟩ := C5_default_filename "info" "my.log"
  exact ⟨a, b, hc, d (by decide)⟩

/-- A state that already holds a logger (for replacement and loss
scenarios). -/
def primedState : LogState := ⟨some ⟨fileDefaultConfig, 0, []⟩, []⟩

/-- The state `InitLogger(true, "", "debug")` produces from a fresh state
under a successful build. -/
def stateAfterFileInit : LogState :=
  ⟨some ⟨fileDefaultConfig, 0, []⟩,
   [⟨⟨fileDefaultConfig, 1, []⟩, LevelTag.info,
     initSummaryMsg true "out.log" "debug" "json", []⟩]⟩

/-- A successful `buildConfig` always returns the fresh logger embodying
exactly the configuration it was given. -/
theorem buildConfig_ok_shape (env : Env) (c : ZapConfig) (l : Logger)
    (h : buildConfig env c = Except.ok l) : l = ⟨c, 0, []⟩ := by
  simp only [buildConfig] at h
  split at h
  · simp at h
  · split at h
    · simp at h
    · split at h
      · simp at h
      · simpa using h.symm

/-- C6: `GetLogger(skip)` with an existing logger returns a view of the
singleton with `skip` extra caller frames skipped and neither mutates nor
replaces it; with no logger yet it first performs the default
`InitLogger(false, "", "debug")` (console sink, debug level, human-readable
encoding) and terminates the process if that fails. -/
theorem C6_get_logger (env : Env) (skip : Int) (s : LogState) :
    (∀ l, s.defaultLogger = some l → GetLogger env skip s = some (l.addCallerSkip skip, s)) ∧
    (s.defaultLogger = none → env.buildFail defaultConsoleConfig = none →
      GetLogger env skip s =
        some ((⟨defaultConsoleConfig, 0, []⟩ : Logger).addCallerSkip skip,
          { defaultLogger := some ⟨defaultConsoleConfig, 0, []⟩,
            events := s.events ++
              [⟨⟨defaultConsoleConfig, 1, []⟩, LevelTag.info,
                initSummaryMsg false "" "debug" "console", []⟩] })) ∧
    (s.defaultLogger = none → ∀ e, env.buildFail defaultConsoleConfig = some e →
      GetLogger env skip s = none) := by
  refine ⟨?_, ?_, ?_⟩
  · intro l h
    simp [GetLogger, h]
  · intro h hb
    simp [GetLogger, h, InitLogger_default, hb]
  · intro h e hb
    simp [GetLogger, h, InitLogger_default, hb]

/-- Witness for C6: existing-logger, fresh-default, and failing-build
scenarios at concrete inputs. -/
theorem C6_witness :
    GetLogger okEnv 2 primedState =
      some ((⟨fileDefaultConfig, 0, []⟩ : Logger).addCallerSkip 2, primedState) ∧
    GetLogger okEnv 3 initialState =
      some ((⟨defaultConsoleConfig, 0, []⟩ : Logger).addCallerSkip 3,
        { defaultLogger := some ⟨defaultConsoleConfig, 0, []⟩,
          events := initialState.events ++
            [⟨⟨defaultConsoleConfig, 1, []⟩, LevelTag.info,
              initSummaryMsg false "" "debug" "console", []⟩] }) ∧
    GetLogger failEnv 0 initialState = none :=
  ⟨(C6_get_logger okEnv 2 primedState).1 _ rfl,
   (C6_get_logger okEnv 3 initialState).2.1 rfl rfl,
   (C6_get_logger failEnv 0 initialState).2.2 rfl "open sink: permission denied" rfl⟩

/-- C7 counterexample: the claim asserts a formatted variant for each of
the six levels, but the source defines no `Panicf`. -/
theorem C7_counterexample :
    hasFormattedVariant LevelTag.panic = false ∧
    ¬ ∀ l : LevelTag, hasFormattedVariant l = true := by
  refine ⟨rfl, fun h => ?_⟩
  exact absurd (h LevelTag.panic) (by decide)

/-- C7 as amended: for each level with a formatted variant (Debug, Info,
Warn, Error, Fatal — not Panic), `Levelf(format, args...)` interpolates and
then behaves exactly as the non-formatted call at the same level with the
interpolated message and no fields. -/
theorem C7_formatted_variants (env : Env) (format : String) (a : List Value)
    (s : LogState) :
    hasFormattedVariant LevelTag.debug = true ∧
    Debugf env format a s = Debug env (sprintf format a) [] s ∧
    Infof env format a s = Info env (sprintf format a) [] s ∧
    Warnf env format a s = Warn env (sprintf format a) [] s ∧
    Errorf env format a s = Error env (sprintf format a) [] s ∧
    Fatalf env format a s = Fatal env (sprintf format a) [] s :=
  ⟨rfl, rfl, rfl, rfl, rfl, rfl⟩

/-- C8: every successful `InitLogger` call stores the newly built logger as
the process-wide singleton (replacing whatever was there: last
initialization wins) and appends exactly one informational record, emitted
through the newly built logger, summarizing the resolved configuration. -/
theorem C8_replaces_and_announces (env : Env) (isSave : Bool) (fn lvl : String)
    (enc : List String) (s s' : LogState)
    (h : InitLogger env isSave fn lvl enc s = (Except.ok (), s')) :
    ∃ l : Logger,
      s'.defaultLogger = some l ∧
      l.callerSkip = 0 ∧ l.boundFields = [] ∧
      s'.events = s.events ++
        [⟨l.addCallerSkip 1, LevelTag.info,
          initSummaryMsg isSave (resolveFilename isSave fn) lvl (resolveEncoding isSave enc),
          []⟩] := by
  simp only [InitLogger] at h
  split at h
  · simp at h
  · split at h
    · simp at h
    · rename_i l hbuild
      rw [Prod.mk.injEq] at h
      obtain ⟨-, rfl⟩ := h
      exact ⟨l, by simp [Logger.log], by simp [buildConfig_ok_shape env _ l hbuild],
        by simp [buildConfig_ok_shape env _ l hbuild], by simp [Logger.log]⟩

/-- Witness for C8: the file-mode default initialization from a fresh
state. -/
theorem C8_witness :
    ∃ l : Logger,
      stateAfterFileInit.defaultLogger = some l ∧
      l.callerSkip = 0 ∧ l.boundFields = [] ∧
      stateAfterFileInit.events = initialState.events ++
        [⟨l.addCallerSkip 1, LevelTag.info,
          initSummaryMsg true (resolveFilename true "") "debug" (resolveEncoding true []),
          []⟩] :=
  C8_replaces_and_announces okEnv true "" "debug" [] initialState stateAfterFileInit rfl

/-- C9: when the engine build fails, `defaultLogger` is overwritten with
the nil logger Build returns before the error propagates — a previously
active logger is lost, and a later logging call runs the fresh default
lazy initialization — whereas an unmarshal failure leaves the state
exactly as it was. -/
theorem C9_build_failure_clears_logger (env : Env) (isSave : Bool) (fn lvl : String)
    (enc : List String) (s : LogState) :
    (jsonUnmarshalConfig (assembledConfigJSON isSave fn lvl enc) = none →
      InitLogger env isSave fn lvl enc s = (Except.error "json unmarshal error", s)) ∧
    (∀ c e, jsonUnmarshalConfig (assembledConfigJSON isSave fn lvl enc) = some c →
      buildConfig env (withTimeEncoder isSave c) = Except.error e →
      InitLogger env isSave fn lvl enc s = (Except.error e, { s with defaultLogger := none })) ∧
    (∀ t : LogState, t.defaultLogger = none → env.buildFail defaultConsoleConfig = none →
      getLogger env t =
        some ((⟨defaultConsoleConfig, 0, []⟩ : Logger).addCallerSkip 1,
          { defaultLogger := some ⟨defaultConsoleConfig, 0, []⟩,
            events := t.events ++
              [⟨⟨defaultConsoleConfig, 1, []⟩, LevelTag.info,
                initSummaryMsg false "" "debug" "console", []⟩] })) := by
  have hsc : (if isSave then
        fileConfigJSON (resolveLevelName lvl) (resolveEncoding isSave enc) (resolveFilename isSave fn)
      else consoleConfigJSON (resolveLevelName lvl) (resolveEncoding isSave enc)) =
      assembledConfigJSON isSave fn lvl enc := rfl
  refine ⟨?_, ?_, ?_⟩
  · intro h
    simp only [InitLogger, hsc, h]
  · intro c e hc hb
    simp only [InitLogger, hsc, hc, hb]
  · intro t ht hb
    simp [getLogger, ht, InitLogger_default, hb]

/-- Witness for C9: a quote-bearing filename triggers the unchanged-state
unmarshal error; a failing sink open clears a previously installed logger;
the cleared state lazily re-initializes on the next call. -/
theorem C9_witness :
    InitLogger okEnv true "a\"b" "debug" [] primedState =
      (Except.error "json unmarshal error", primedState) ∧
    InitLogger failEnv false "" "debug" [] primedState =
      (Except.error "open sink: permission denied",
       { primedState with defaultLogger := none }) ∧
    getLogger okEnv initialState =
      some ((⟨defaultConsoleConfig, 0, []⟩ : Logger).addCallerSkip 1,
        { defaultLogger := some ⟨defaultConsoleConfig, 0, []⟩,
          events := initialState.events ++
            [⟨⟨defaultConsoleConfig, 1, []⟩, LevelTag.info,
              initSummaryMsg false "" "debug" "console", []⟩] }) :=
  ⟨(C9_build_failure_clears_logger okEnv true "a\"b" "debug" [] primedState).1 (by decide),
   (C9_build_failure_clears_logger failEnv false "" "debug" [] primedState).2.1
     ⟨some "debug", "console", ["stdout"], ["stdout"], TimeEncoder.epoch⟩
     "open sink: permission denied" (by decide) rfl,
   (C9_build_failure_clears_logger okEnv false "" "debug" [] initialState).2.2
     initialState rfl rfl⟩

/-- C10 counterexample: not every double-quote-bearing filename makes the
assembled configuration malformed — `a","b` re-shapes the JSON into a
*valid* configuration with two output paths, and `InitLogger` succeeds on
it; likewise a backslash need not break the JSON — `a\b` parses, with the
`\b` interpreted as a backspace escape. -/
theorem C10_counterexample :
    jsonUnmarshalConfig (fileConfigJSON "DEBUG" "json" "a\",\"b") =
      some ⟨some "debug", "json", ["a", "b"], ["a", "b"], TimeEncoder.epoch⟩ ∧
    (InitLogger okEnv true "a\",\"b" "debug" [] initialState).1 = Except.ok () ∧
    jsonUnmarshalConfig (fileConfigJSON "DEBUG" "json" "a\\b") =
      some ⟨some "debug", "json", [String.mk ['a', Char.ofNat 8]],
            [String.mk ['a', Char.ofNat 8]], TimeEncoder.epoch⟩ := by
  refine ⟨by decide, ?_, by decide⟩
  rfl

/-- C10 as amended: filenames exist that are legal file paths yet make
`InitLogger(true, filename, level)` fail, because the configuration is
assembled by textual interpolation — a filename with an unbalanced double
quote such as `a"b` leaves the configuration text malformed (though not
every quote- or backslash-bearing filename does), `json.Unmarshal` fails,
and the error is returned with `defaultLogger` unchanged. -/
theorem C10_malformed_filename (env : Env) (s : LogState) (lvl : String) :
    jsonUnmarshalConfig (assembledConfigJSON true "a\"b" lvl []) = none ∧
    InitLogger env true "a\"b" lvl [] s = (Except.error "json unmarshal error", s) := by
  have hq : assembledConfigJSON true "a\"b" lvl [] =
      fileConfigJSON (resolveLevelName lvl) "json" "a\"b" := rfl
  have h : jsonUnmarshalConfig (assembledConfigJSON true "a\"b" lvl []) = none := by
    rw [hq]
    rcases resolveLevelName_cases lvl with hl | hl | hl | hl <;> rw [hl] <;> decide
  refine ⟨h, ?_⟩
  rw [InitLogger_cases, h]

end LoggerSpec
